import Mathlib

/-!
Shallow embedding of the "properties-in-export" Obsidian plugin.

The repository holds three overlapping variants of the plugin:
  * variant A — `src/unnamed/part_000` (the fullest variant, with the
    file-patch fallback and `fileBackups`);
  * the first half of `src/main.ts` (a reduced copy of variant A);
  * variant B — the second half of `src/main.ts` (the luxon-based variant).

Pure functions of the source (escapeHtml, valueToHtml, getPropertiesHtml,
getPropertiesMarkdown, the wikilink / date regexes) are translated to Lean
functions over explicit character lists; the regular expressions of the
source are translated to deterministic scanners that reproduce the
behaviour of the JS patterns involved (each pattern's character classes
exclude its closing delimiters, so backtracking never changes the match).
Stateful code (DOM injection/removal, the file patch and its backup,
command-table monkey patching) is modelled by explicit state passing; a
fallible host write is modelled by a Boolean `writeOk` oracle; JS
exceptions are modelled with `Except`.
-/

/-- Frontmatter property values as the modelled code consumes them:
strings, null/undefined, and (possibly nested) arrays. -/
inductive Value where
  | null
  | str (s : String)
  | list (vs : List Value)

/-- The apostrophe character, one of the five escaped HTML metacharacters. -/
def quoteChar : Char := Char.ofNat 39

/-- One step of `escapeHtml` (variant A `part_000:443-445`, variant B
`main.ts:439-441`): the JS `replace(/[&<>"']/g, c => map[c])` maps each of
the five metacharacters to its entity and keeps every other character. -/
def escChar (c : Char) : String :=
  if c = '&' then "&amp;"
  else if c = '<' then "&lt;"
  else if c = '>' then "&gt;"
  else if c = '"' then "&quot;"
  else if c = quoteChar then "&#39;"
  else String.singleton c

/-- Character-list form of `escapeHtml`. -/
def escapeChars : List Char → List Char
  | [] => []
  | c :: cs => (escChar c).data ++ escapeChars cs

/-- `escapeHtml` of the source: escape the five HTML metacharacters. -/
def escapeHtml (s : String) : String := String.mk (escapeChars s.data)

mutual
/-- JS `String(v)` on the modelled values (array `toString` joins the
elements with a comma, rendering null/undefined elements as empty). -/
def jsString : Value → String
  | Value.null => "null"
  | Value.str s => s
  | Value.list vs => String.intercalate "," (jsJoinList vs)
def jsJoinList : List Value → List String
  | [] => []
  | Value.null :: vs => "" :: jsJoinList vs
  | v :: vs => jsString v :: jsJoinList vs
end

/-- `Array.prototype.join(', ')` of `getPropertiesMarkdown`
(`part_000:359`): elements through `String`, null/undefined to empty. -/
def mdValueText : Value → String
  | Value.list vs => String.intercalate ", " (jsJoinList vs)
  | v => jsString v

/-- Scanner for variant A's anchored date regex
`^(\d{4}-\d{2}-\d{2})[T ](\d{2}):(\d{2})(?::(\d{2}))?$` (`part_000:452`).
Returns the date part, the parsed hour and the minute digits. -/
def dateMatch (s : String) : Option (String × Nat × String) :=
  match s.data with
  | [y1, y2, y3, y4, '-', o1, o2, '-', d1, d2, sep, h1, h2, ':', m1, m2] =>
    if ([y1, y2, y3, y4, o1, o2, d1, d2, h1, h2, m1, m2].all Char.isDigit)
        && (sep = 'T' || sep = ' ') then
      some (String.mk [y1, y2, y3, y4, '-', o1, o2, '-', d1, d2],
        (h1.toNat - 48) * 10 + (h2.toNat - 48), String.mk [m1, m2])
    else none
  | [y1, y2, y3, y4, '-', o1, o2, '-', d1, d2, sep, h1, h2, ':', m1, m2, ':', s1, s2] =>
    if ([y1, y2, y3, y4, o1, o2, d1, d2, h1, h2, m1, m2, s1, s2].all Char.isDigit)
        && (sep = 'T' || sep = ' ') then
      some (String.mk [y1, y2, y3, y4, '-', o1, o2, '-', d1, d2],
        (h1.toNat - 48) * 10 + (h2.toNat - 48), String.mk [m1, m2])
    else none
  | _ => none

/-- Variant A's manual 12-hour rendering of a matched date
(`part_000:454-461`). -/
def formatDateA (datePart : String) (hh : Nat) (mm : String) : String :=
  let ampm := if hh ≥ 12 then "PM" else "AM"
  let hh2 := hh % 12
  let hh3 := if hh2 = 0 then 12 else hh2
  let hhPad := if hh3 < 10 then "0" ++ toString hh3 else toString hh3
  escapeHtml datePart ++ " " ++ escapeHtml (hhPad ++ mm ++ ampm)

/-- The anchor markup variant A substitutes for a wikilink
(`part_000:464-468`). -/
def wikiLinkA (path : String) : String :=
  "<a class=\"internal-link\" href=\"#\" style=\"color:var(--text-accent, #388bfd);text-decoration:underline;\">"
    ++ escapeHtml path ++ "</a>"

/-- Matcher for variant A's wikilink pattern `\[\[([^\]]+)\]\]` at the head
of the character list: `[[`, a nonempty run without `]`, then `]]`. -/
def matchWikiA : List Char → Option (String × List Char)
  | '[' :: '[' :: rest =>
    let inner := rest.takeWhile (fun c => c ≠ ']')
    if inner.isEmpty then none
    else
      match rest.drop inner.length with
      | ']' :: ']' :: rest2 => some (String.mk inner, rest2)
      | _ => none
  | _ => none

/-- Left-to-right global replacement for variant A's wikilink regex, fuelled
by the input length (each step consumes at least one character). -/
def replaceWikiGoA : Nat → List Char → String
  | 0, cs => String.mk cs
  | _ + 1, [] => ""
  | fuel + 1, c :: cs =>
    match matchWikiA (c :: cs) with
    | some (path, rest) => wikiLinkA path ++ replaceWikiGoA fuel rest
    | none => String.singleton c ++ replaceWikiGoA fuel cs

/-- Variant A's `s.replace(/\[\[([^\]]+)\]\]/g, ...)` (`part_000:464-468`). -/
def replaceWikilinksA (s : String) : String := replaceWikiGoA s.data.length s.data

mutual
/-- Variant A's `valueToHtml` (`part_000:448-470`): empty for null, comma
join for arrays, manual date rendering for the date pattern, otherwise the
raw string with wikilinks replaced (note: the plain text is NOT escaped). -/
def valueToHtml : Value → String
  | Value.null => ""
  | Value.list vs => String.intercalate ", " (valueToHtmlList vs)
  | Value.str s =>
    match dateMatch s with
    | some (d, hh, mm) => formatDateA d hh mm
    | none => replaceWikilinksA s
def valueToHtmlList : List Value → List String
  | [] => []
  | v :: vs => valueToHtml v :: valueToHtmlList vs
end

/-- Variant B's `isDateValue` regex
`^\d{4}-\d{2}-\d{2}(T\d{2}:\d{2}(:\d{2}(\.\d+)?)?(Z|([+-]\d{2}:\d{2}))?)?$`
(`main.ts` variant B), as a deterministic scanner: every optional group
starts with a character that no alternative continuation accepts. -/
def takeDigits : Nat → List Char → Option (List Char)
  | 0, cs => some cs
  | _ + 1, [] => none
  | n + 1, c :: cs => if c.isDigit then takeDigits n cs else none

/-- Zone hour-minute tail `\d{2}:\d{2}` followed by end of input. -/
def zoneHM (r : List Char) : Bool :=
  match takeDigits 2 r with
  | some (':' :: r2) => takeDigits 2 r2 = some []
  | _ => false

/-- Optional zone `(Z|([+-]\d{2}:\d{2}))?` then end of input. -/
def zoneEnd : List Char → Bool
  | [] => true
  | ['Z'] => true
  | '+' :: r => zoneHM r
  | '-' :: r => zoneHM r
  | _ => false

/-- Optional seconds `(:\d{2}(\.\d+)?)?` then optional zone, then end. -/
def timeTail : List Char → Bool
  | ':' :: r =>
    (match takeDigits 2 r with
     | some ('.' :: r3) =>
       let ds := r3.takeWhile Char.isDigit
       if ds.isEmpty then false else zoneEnd (r3.drop ds.length)
     | some r2 => zoneEnd r2
     | none => false)
  | r => zoneEnd r

/-- Variant B's `isDateValue` on the string content (the JS function first
requires `typeof val === 'string'`; callers apply it only to `.str`). -/
def isDateValue (s : String) : Bool :=
  match takeDigits 4 s.data with
  | some ('-' :: r1) =>
    (match takeDigits 2 r1 with
     | some ('-' :: r2) =>
       (match takeDigits 2 r2 with
        | some [] => true
        | some ('T' :: r3) =>
          (match takeDigits 2 r3 with
           | some (':' :: r4) =>
             (match takeDigits 2 r4 with
              | some r5 => timeTail r5
              | none => false)
           | _ => false)
        | _ => false)
     | _ => false)
  | _ => false

/-- The anchor markup variant B substitutes for a wikilink
(`main.ts` variant B, `valueToHtml`). -/
def wikiLinkB (link : String) (disp : Option String) : String :=
  "<a href=\"#" ++ escapeHtml link ++ "\" class=\"internal-link\">"
    ++ escapeHtml (disp.getD link) ++ "</a>"

/-- Matcher for variant B's pattern `\[\[([^\]|]+)(\|([^\]]+))?\]\]` at the
head of the list: `[[`, a nonempty run without `]` or `|`, an optional
`|display` part (nonempty, without `]`), then `]]`. -/
def matchWikiB : List Char → Option (String × Option String × List Char)
  | '[' :: '[' :: rest =>
    let link := rest.takeWhile (fun c => c ≠ ']' && c ≠ '|')
    if link.isEmpty then none
    else
      match rest.drop link.length with
      | '|' :: rest2 =>
        let disp := rest2.takeWhile (fun c => c ≠ ']')
        if disp.isEmpty then none
        else
          match rest2.drop disp.length with
          | ']' :: ']' :: rest3 => some (String.mk link, some (String.mk disp), rest3)
          | _ => none
      | ']' :: ']' :: rest2 => some (String.mk link, none, rest2)
      | _ => none
  | _ => none

/-- Left-to-right global replacement for variant B's wikilink regex. -/
def replaceWikiGoB : Nat → List Char → String
  | 0, cs => String.mk cs
  | _ + 1, [] => ""
  | fuel + 1, c :: cs =>
    match matchWikiB (c :: cs) with
    | some (link, disp, rest) => wikiLinkB link disp ++ replaceWikiGoB fuel rest
    | none => String.singleton c ++ replaceWikiGoB fuel cs

/-- Variant B's wikilink replacement pass. -/
def replaceWikilinksB (s : String) : String := replaceWikiGoB s.data.length s.data

/-- Matcher for the split pattern `(<a [^>]+>[^<]*<\/a>)` at the head of the
list, returning the matched run and the remainder. -/
def matchAnchor : List Char → Option (List Char × List Char)
  | '<' :: 'a' :: ' ' :: rest =>
    let attrs := rest.takeWhile (fun c => c ≠ '>')
    if attrs.isEmpty then none
    else
      match rest.drop attrs.length with
      | '>' :: rest2 =>
        let txt := rest2.takeWhile (fun c => c ≠ '<')
        (match rest2.drop txt.length with
         | '<' :: '/' :: 'a' :: '>' :: rest3 =>
           some ('<' :: 'a' :: ' ' :: attrs ++ '>' :: txt ++ ['<', '/', 'a', '>'], rest3)
         | _ => none)
      | _ => none
  | _ => none

/-- JS `part.startsWith('<a ')` on the character list. -/
def startsWithAnchor (p : List Char) : Bool :=
  match p with
  | '<' :: 'a' :: ' ' :: _ => true
  | _ => false

/-- Variant B's per-part map: `part.startsWith('<a ') ? part :
escapeHtml(part)`. -/
def escapePart (p : String) : String :=
  if startsWithAnchor p.data then p else escapeHtml p

/-- Variant B's `split(/(<a [^>]+>[^<]*<\/a>)/g).map(...).join('')`:
the stretches between anchor matches and the matches themselves each go
through `escapePart`. -/
def splitEscapeGo : Nat → List Char → List Char → String
  | 0, acc, cs => escapePart (String.mk (acc.reverse ++ cs))
  | _ + 1, acc, [] => escapePart (String.mk acc.reverse)
  | fuel + 1, acc, c :: cs =>
    match matchAnchor (c :: cs) with
    | some (m, rest) =>
      escapePart (String.mk acc.reverse) ++ escapePart (String.mk m)
        ++ splitEscapeGo fuel [] rest
    | none => splitEscapeGo fuel (c :: acc) cs

/-- Variant B's split-and-escape pass over the replaced string. -/
def splitEscape (s : String) : String := splitEscapeGo s.data.length [] s.data

mutual
/-- Variant B's `valueToHtml` (`main.ts` variant B): arrays joined with
`", "`; date-looking strings formatted through luxon (an external library,
abstracted as the `lux` parameter returning `none` when the parse is
invalid) and escaped; everything else stringified, wikilink-replaced, and
split-escaped. -/
def valueToHtmlB : Value → (String → Option String) → String
  | Value.list vs, lux => String.intercalate ", " (valueToHtmlBList vs lux)
  | Value.str s, lux =>
    if isDateValue s then
      match lux s with
      | some r => escapeHtml r
      | none => splitEscape (replaceWikilinksB s)
    else splitEscape (replaceWikilinksB s)
  | Value.null, _ => splitEscape (replaceWikilinksB "null")
def valueToHtmlBList : List Value → (String → Option String) → List String
  | [], _ => []
  | v :: vs, lux => valueToHtmlB v lux :: valueToHtmlBList vs lux
end

/-- JS `\s` on the ASCII range (used by `trim()` and the heading search
`/^#\s/m`; the Unicode space classes JS also accepts are not modelled). -/
def jsWhitespaceChar (c : Char) : Bool :=
  c = ' ' || c = '\t' || c = '\n' || c = '\r' || c = Char.ofNat 11 || c = Char.ofNat 12

/-- JS `s.split(',')`: the comma-separated groups, with empty groups kept
(`"".split(',')` is `[""]`). -/
def splitOnComma : List Char → List (List Char)
  | [] => [[]]
  | ',' :: cs => [] :: splitOnComma cs
  | c :: cs =>
    match splitOnComma cs with
    | g :: gs => (c :: g) :: gs
    | [] => [[c]]

/-- JS `s.trim()`: strip whitespace from both ends. -/
def jsTrim (cs : List Char) : List Char :=
  ((cs.dropWhile jsWhitespaceChar).reverse.dropWhile jsWhitespaceChar).reverse

/-- Variant A's parse of the `omittedProperties` setting
(`part_000:250-253`): split on commas, trim, drop empties. -/
def parseOmitted (s : String) : List String :=
  ((splitOnComma s.data).map (fun g => String.mk (jsTrim g))).filter
    (fun p => !p.data.isEmpty)

/-- The `delete props[prop]` loop of `getPropertiesHtml` /
`getPropertiesMarkdown` over a copy of the map, as a key filter. -/
def filteredProps (omitted : String) (props : List (String × Value)) :
    List (String × Value) :=
  props.filter (fun kv => !((parseOmitted omitted).contains kv.1))

/-- The row list of `getPropertiesHtml` / `getPropertiesMarkdown`: the
filtered properties in insertion order, or `none` when nothing remains
(`if (Object.keys(props).length === 0) return null`). -/
def getPropertiesRows (omitted : String) (props : List (String × Value)) :
    Option (List (String × Value)) :=
  let ps := filteredProps omitted props
  if ps.isEmpty then none else some ps

/-- One `<tr>` of `getPropertiesHtml` (`part_000:263`). -/
def rowHtml (kv : String × Value) : String :=
  "<tr><td style=\"font-weight:bold;padding:2px 6px;width:25%;\">"
    ++ escapeHtml kv.1 ++ "</td><td style=\"padding:2px 6px;\">"
    ++ valueToHtml kv.2 ++ "</td></tr>"

/-- Variant A's `getPropertiesHtml` (`part_000:248-267`). -/
def getPropertiesHtml (omitted : String) (props : List (String × Value)) :
    Option String :=
  (getPropertiesRows omitted props).map (fun ps =>
    "<div class=\"export-properties-block\" style=\"margin-bottom:1em;background:#f9f9f9;page-break-inside:avoid;\">"
      ++ "<table style=\"width:100%;\">" ++ String.join (ps.map rowHtml)
      ++ "</table></div>")

/-- One `- **key**: value` line of `getPropertiesMarkdown`
(`part_000:360`). -/
def mdLine (kv : String × Value) : String :=
  "- **" ++ escapeHtml kv.1 ++ "**: " ++ escapeHtml (mdValueText kv.2) ++ "\n"

/-- Variant A's `getPropertiesMarkdown` (`part_000:346-364`). -/
def getPropertiesMarkdown (omitted : String) (props : List (String × Value)) :
    Option String :=
  (getPropertiesRows omitted props).map (fun ps =>
    "<!-- export-properties-start -->\n" ++ "**Properties**\n\n"
      ++ String.join (ps.map mdLine) ++ "\n<!-- export-properties-end -->\n")

/-- The `delete props.position` step performed by every variant A caller
before rendering (`part_000:191,278`). -/
def dropPosition (fm : List (String × Value)) : List (String × Value) :=
  fm.filter (fun kv => kv.1 != "position")

/-- Variant A's rendering pipeline at row granularity: copy the
frontmatter, delete `position`, then filter the omitted names. -/
def renderRowsA (omitted : String) (fm : List (String × Value)) :
    Option (List (String × Value)) :=
  getPropertiesRows omitted (dropPosition fm)

/-- Variant B's parse of the `excludedProperties` setting
(`main.ts` variant B: split, trim, `filter(Boolean)` — `Boolean("")` is
false, so this is the same empty-drop as variant A's). -/
def excludedListB (s : String) : List String :=
  ((splitOnComma s.data).map (fun g => String.mk (jsTrim g))).filter
    (fun x => !x.data.isEmpty)

/-- The row filter of variant B's post-processor
(`main.ts` variant B: `key !== 'tags' && !excluded.includes(key)`). -/
def postProcessorRowsB (excl : String) (fm : List (String × Value)) :
    List (String × Value) :=
  fm.filter (fun kv => (kv.1 != "tags") && !((excludedListB excl).contains kv.1))

/-- Children of a rendered container, as the injection code observes them:
the marker-class block (`.export-properties-block`), an `h1` heading, or
anything else. -/
inductive DomNode where
  | block
  | heading
  | other
deriving DecidableEq, Repr

/-- A rendered container (one `.markdown-preview-section`). -/
structure RenderTarget where
  children : List DomNode
deriving DecidableEq, Repr

/-- `querySelector('.export-properties-block')` truth value on a target. -/
def containsBlock (t : RenderTarget) : Bool :=
  t.children.contains DomNode.block

/-- Insert the block right after the first `h1`, if any
(`firstHeading.insertAdjacentHTML('afterend', html)`). -/
def insertAfterH : List DomNode → Option (List DomNode)
  | [] => none
  | DomNode.heading :: rest => some (DomNode.heading :: DomNode.block :: rest)
  | n :: rest => (insertAfterH rest).map (fun l => n :: l)

/-- The placement step of `injectRenderedProperties` (`part_000:327-336`):
after the first `h1` when `insertAfterHeading` is set and one exists,
otherwise `afterbegin`. -/
def insertBlock (afterHeading : Bool) (t : RenderTarget) : RenderTarget :=
  if afterHeading then
    match insertAfterH t.children with
    | some l => ⟨l⟩
    | none => ⟨DomNode.block :: t.children⟩
  else ⟨DomNode.block :: t.children⟩

/-- The inject operation on one target: skip when the marker is already
present (`part_000:317-325`), otherwise insert per the placement rule. -/
def injectDom (afterHeading : Bool) (t : RenderTarget) : RenderTarget :=
  if containsBlock t then t else insertBlock afterHeading t

/-- `querySelector(...).remove()`: detach the first marker block, a no-op
when none is present. -/
def removeFirstBlock : List DomNode → List DomNode
  | [] => []
  | DomNode.block :: rest => rest
  | n :: rest => n :: removeFirstBlock rest

/-- The remove operation on one target (`part_000:411-423`). -/
def removeDom (t : RenderTarget) : RenderTarget := ⟨removeFirstBlock t.children⟩

/-- Number of live marker blocks in a target. -/
def countBlocks (t : RenderTarget) : Nat := t.children.count DomNode.block

/-- An inject or remove step on a target. -/
inductive DomOp where
  | inj (afterHeading : Bool)
  | rem
deriving DecidableEq, Repr

/-- Apply one inject/remove step. -/
def applyDomOp : DomOp → RenderTarget → RenderTarget
  | DomOp.inj b, t => injectDom b t
  | DomOp.rem, t => removeDom t

/-- Apply a sequence of inject/remove steps, left to right. -/
def applyDomOps (ops : List DomOp) (t : RenderTarget) : RenderTarget :=
  ops.foldl (fun acc op => applyDomOp op acc) t

/-- `original.search(/^#\s/m)` (`part_000:379`): index of the first `#`
standing at a line start and followed by a whitespace character. -/
def findHeadingGo : Nat → Bool → List Char → Option Nat
  | _, _, [] => none
  | i, atStart, c :: cs =>
    if atStart && c = '#' then
      match cs with
      | c2 :: _ =>
        if jsWhitespaceChar c2 then some i
        else findHeadingGo (i + 1) (c = '\n') cs
      | [] => none
    else findHeadingGo (i + 1) (c = '\n') cs

/-- `original.indexOf('\n', idx)` on the character list. -/
def idxOfNewlineFrom (cs : List Char) (start : Nat) : Option Nat :=
  match (cs.drop start).findIdx? (fun c => c = '\n') with
  | some j => some (start + j)
  | none => none

/-- The content-splice of `patchFileForExport` (`part_000:377-393`):
`md + original` at the top, or after the first top-level heading line when
`insertAfterHeading` is set and a heading is found. -/
def splice (afterHeading : Bool) (md original : String) : String :=
  if afterHeading then
    match findHeadingGo 0 true original.data with
    | some idx =>
      (match idxOfNewlineFrom original.data idx with
       | none => original ++ "\n" ++ md
       | some eol =>
         String.mk (original.data.take (eol + 1)) ++ md
           ++ String.mk (original.data.drop (eol + 1)))
    | none => md ++ original
  else md ++ original

/-- The plugin-side state visible to variant A's inject/remove/patch code.
The model tracks one markdown document that is both `currentFile` and the
workspace's active file; `viewSection` is the preview section found inside
the active view's `contentEl`, `docSection` the one found by querying the
global document (each `none` when the respective `querySelector` finds
nothing); `content` is the document text and `backup` the `fileBackups`
entry for the document's path. -/
structure PluginState where
  hasFile : Bool
  frontmatter : Option (List (String × Value))
  displayProperties : Bool
  omittedProperties : String
  insertAfterHeading : Bool
  hasView : Bool
  viewSection : Option RenderTarget
  docSection : Option RenderTarget
  content : String
  backup : Option String

/-- `document.querySelector('.export-properties-block')` over the whole
document: blocks live inside the two modelled sections. -/
def docQueryBlock (st : PluginState) : Bool :=
  (match st.viewSection with | some t => containsBlock t | none => false)
    || (match st.docSection with | some t => containsBlock t | none => false)

/-- `view.contentEl.querySelector('.export-properties-block')` truth
value. -/
def viewHasBlock (st : PluginState) : Bool :=
  match st.viewSection with
  | some t => containsBlock t
  | none => false

/-- `patchFileForExport` (`part_000:370-402`): build the markdown block
(abort when null), save the original text in `fileBackups`, splice, then
write. `writeOk` is the host-write oracle: on a failing `vault.modify` the
catch block deletes the backup and rethrows. -/
def patchFileForExport (writeOk : Bool) (st : PluginState)
    (props : List (String × Value)) : PluginState × Except Unit Unit :=
  match getPropertiesMarkdown st.omittedProperties props with
  | none => (st, Except.ok ())
  | some md =>
    let original := st.content
    let st1 := { st with backup := some original }
    let newContent := splice st.insertAfterHeading md original
    if writeOk then ({ st1 with content := newContent }, Except.ok ())
    else ({ st1 with backup := none }, Except.error ())

/-- `injectRenderedProperties` (`part_000:269-339`): bail out without a
current file, frontmatter, the display setting, or a nonempty rendered
block; bail out without an active markdown view; insert into the view's
preview section, else the document's, guarded by the document-wide
duplicate check; with no section at all, fall back to the file patch
(whose errors are caught and logged at the call site). -/
def injectRenderedProperties (writeOk : Bool) (st : PluginState) : PluginState :=
  if !st.hasFile then st
  else
    match st.frontmatter with
    | none => st
    | some fm =>
      if !st.displayProperties then st
      else
        let props := dropPosition fm
        match getPropertiesHtml st.omittedProperties props with
        | none => st
        | some _ =>
          if !st.hasView then st
          else
            match st.viewSection with
            | some vs =>
              if docQueryBlock st then st
              else { st with viewSection := some (insertBlock st.insertAfterHeading vs) }
            | none =>
              match st.docSection with
              | some ds =>
                if docQueryBlock st then st
                else { st with docSection := some (insertBlock st.insertAfterHeading ds) }
              | none => (patchFileForExport writeOk st props).1

/-- The file-restore tail of `removeInjectedProperties`
(`part_000:428-439`): `if (active && this.fileBackups[active.path])` — the
backup string's JS truthiness gates the restore, so an empty backup is
skipped; when the restoring `vault.modify` fails the catch logs and the
`delete` after it is skipped, so the backup entry stays. -/
def restoreStep (writeOk : Bool) (st : PluginState) : PluginState :=
  if !st.hasFile then st
  else
    match st.backup with
    | some original =>
      if original.data.isEmpty then st
      else if writeOk then { st with content := original, backup := none }
      else st
    | none => st

/-- `removeInjectedProperties` (`part_000:405-440`): bail out without an
active view; when the view holds a marker block, detach it and return
early; otherwise detach a document-level block if any, then run the
file-restore tail. -/
def removeInjectedProperties (writeOk : Bool) (st : PluginState) : PluginState :=
  if !st.hasView then st
  else if viewHasBlock st then
    { st with viewSection := st.viewSection.map removeDom }
  else
    let st1 := { st with docSection := st.docSection.map removeDom }
    restoreStep writeOk st1

/-- The shared shape of the three patched command callbacks
(`part_000:65-85`, `92-101`, `105-114`): inject (its errors caught and
logged), delegate to the saved original callback when one exists, and in a
`finally` block run remove (its errors caught and logged); the delegated
action's result or exception passes through. -/
def wrappedCommand (writeOk : Bool)
    (orig : Option (PluginState → PluginState × Except String Unit))
    (st : PluginState) : PluginState × Except String Unit :=
  let st1 := injectRenderedProperties writeOk st
  let res :=
    match orig with
    | some f => f st1
    | none => (st1, Except.ok ())
  (removeInjectedProperties writeOk res.1, res.2)

/-- A command callback in the host's command table: either a host-provided
callback (identified by the command it came with) or one of the three
wrappers the plugin installs. -/
inductive CB where
  | base (cid : String)
  | printWrapper
  | exportWrapper
  | appExportWrapper
deriving DecidableEq, Repr

/-- The host's command table: command id to callback; a command object may
exist with an undefined callback (`none`). -/
abbrev CmdTable := List (String × Option CB)

/-- The plugin fields backing the patch: `originalPrintCallback` and
`isPrintPatched`. -/
structure PatchState where
  originalPrint : Option CB
  isPrintPatched : Bool
deriving DecidableEq, Repr

/-- In-place mutation `command.callback = cb` on the table. -/
def setCB (cmds : CmdTable) (cid : String) (cb : Option CB) : CmdTable :=
  cmds.map (fun e => if e.1 = cid then (e.1, cb) else e)

/-- The `editor:print` patch of `onload` (`part_000:62-87`): save the
original callback, install the wrapper, set the flag. -/
def patchPrint (s : PatchState × CmdTable) : PatchState × CmdTable :=
  match s.2.lookup "editor:print" with
  | some pcb =>
    if s.1.isPrintPatched then s
    else (⟨pcb, true⟩, setCB s.2 "editor:print" (some CB.printWrapper))
  | none => s

/-- The export-command patches of `onload` (`part_000:90-115`): overwrite
the callback with a wrapper WITHOUT saving the previous one. -/
def patchExportCmd (cid : String) (w : CB) (s : PatchState × CmdTable) :
    PatchState × CmdTable :=
  match s.2.lookup cid with
  | some _ => (s.1, setCB s.2 cid (some w))
  | none => s

/-- The command patching performed by `onload`
(print, then `export-pdf`, then `app:export-pdf`). -/
def onloadPatchCommands (cmds : CmdTable) : PatchState × CmdTable :=
  patchExportCmd "app:export-pdf" CB.appExportWrapper
    (patchExportCmd "export-pdf" CB.exportWrapper
      (patchPrint (⟨none, false⟩, cmds)))

/-- `onunload` (`part_000:472-485`): restore `editor:print`'s callback when
the patch flag is set and a non-null original was saved; nothing else is
restored. -/
def onunloadRestore (s : PatchState × CmdTable) : CmdTable :=
  match s.2.lookup "editor:print" with
  | some _ =>
    if s.1.isPrintPatched then
      match s.1.originalPrint with
      | some cb => setCB s.2 "editor:print" (some cb)
      | none => s.2
    else s.2
  | none => s.2

/-- Observable steps of invoking a callback: the plugin's inject step, its
remove step, or running some callback. -/
inductive CmdEvent where
  | injected
  | removed
  | ran (cb : CB)
deriving DecidableEq, Repr

/-- `if (this.originalPrintCallback) { await original(...) }`: the
delegation performed inside every wrapper. -/
def delegEvents : Option CB → List CmdEvent
  | some cb => [CmdEvent.ran cb]
  | none => []

/-- Event trace of invoking a callback under the plugin's saved state: a
host callback just runs; each wrapper injects, delegates to the saved
original print callback (or to nothing), and removes. -/
def invokeEvents (st : PatchState) : CB → List CmdEvent
  | CB.base i => [CmdEvent.ran (CB.base i)]
  | _ => CmdEvent.injected :: (delegEvents st.originalPrint ++ [CmdEvent.removed])

/-- The rendered text of the first anchor of a fragment: the characters
after the first `>` up to the next `<` (the claim's "visible text"). -/
def visibleText (s : String) : String :=
  String.mk (((s.data.dropWhile (fun c => c ≠ '>')).drop 1).takeWhile (fun c => c ≠ '<'))

/-- Suffix of a character list after the first occurrence of a marker. -/
def afterMarker (marker : List Char) : List Char → Option (List Char)
  | [] => if marker.isEmpty then some [] else none
  | c :: cs =>
    if marker.isPrefixOf (c :: cs) then some ((c :: cs).drop marker.length)
    else afterMarker marker cs

/-- The `href` attribute value of a fragment's first link: the characters
after the first `href="` up to the closing quote (the claim's "target"). -/
def hrefTarget (s : String) : String :=
  match afterMarker ("href=".data ++ ['"']) s.data with
  | some rest => String.mk (rest.takeWhile (fun c => c ≠ '"'))
  | none => ""

/-- A concrete state for the empty-document round trip: an empty document
with one frontmatter property, an active view, and no preview section
anywhere (so the patch fallback runs). -/
def c4StartSt : PluginState :=
  { hasFile := true, frontmatter := some [("title", Value.str "x")],
    displayProperties := true, omittedProperties := "",
    insertAfterHeading := false, hasView := true, viewSection := none,
    docSection := none, content := "", backup := none }

/-- A concrete state heading into the restore tail: active view whose
section holds no marker block, a pending non-empty backup. -/
def restoreReadySt : PluginState :=
  { hasFile := true, frontmatter := none, displayProperties := true,
    omittedProperties := "", insertAfterHeading := false, hasView := true,
    viewSection := some ⟨[]⟩, docSection := none, content := "now",
    backup := some "orig" }

/-- A concrete state with a pending backup but no active markdown view at
removal time. -/
def noViewBackupSt : PluginState :=
  { hasFile := true, frontmatter := none, displayProperties := true,
    omittedProperties := "", insertAfterHeading := false, hasView := false,
    viewSection := none, docSection := none, content := "patched",
    backup := some "orig" }

/-- A concrete state where an export trigger fires with everything to show
but no active markdown view (and no preview section anywhere). -/
def noViewInjectSt : PluginState :=
  { hasFile := true, frontmatter := some [("title", Value.str "x")],
    displayProperties := true, omittedProperties := "",
    insertAfterHeading := false, hasView := false, viewSection := none,
    docSection := none, content := "body", backup := none }

/-- A concrete state for the successful patch fallback: a document with a
top-level heading, an active view, no preview section anywhere. -/
def fallbackReadySt : PluginState :=
  { hasFile := true, frontmatter := some [("title", Value.str "x")],
    displayProperties := true, omittedProperties := "",
    insertAfterHeading := true, hasView := true, viewSection := none,
    docSection := none, content := "# H\nbody", backup := none }

/-- A concrete host command table carrying all three targeted commands. -/
def c10Cmds : CmdTable :=
  [("editor:print", some (CB.base "p")), ("export-pdf", some (CB.base "e")),
    ("app:export-pdf", some (CB.base "a"))]

/-! ## Helper lemmas -/

theorem mem_filteredProps (omitted : String) (props : List (String × Value))
    (kv : String × Value) (h : kv ∈ filteredProps omitted props) :
    kv ∈ props ∧ (parseOmitted omitted).contains kv.1 = false := by
  unfold filteredProps at h
  rw [List.mem_filter] at h
  exact ⟨h.1, by simpa using h.2⟩

theorem insertAfterH_count (l : List DomNode) :
    ∀ l', insertAfterH l = some l' →
      l'.count DomNode.block = l.count DomNode.block + 1 := by
  induction l with
  | nil => intro l' h; simp [insertAfterH] at h
  | cons n rest ih =>
    intro l' h
    cases n with
    | heading =>
      simp only [insertAfterH, Option.some.injEq] at h
      subst h
      simp [List.count_cons]
    | block =>
      simp only [insertAfterH] at h
      cases hrec : insertAfterH rest with
      | none => rw [hrec] at h; simp at h
      | some l2 =>
        rw [hrec] at h
        simp only [Option.map_some', Option.some.injEq] at h
        subst h
        simp [List.count_cons, ih l2 hrec]
    | other =>
      simp only [insertAfterH] at h
      cases hrec : insertAfterH rest with
      | none => rw [hrec] at h; simp at h
      | some l2 =>
        rw [hrec] at h
        simp only [Option.map_some', Option.some.injEq] at h
        subst h
        simp [List.count_cons, ih l2 hrec]

theorem countBlocks_insertBlock (b : Bool) (t : RenderTarget) :
    countBlocks (insertBlock b t) = countBlocks t + 1 := by
  unfold insertBlock countBlocks
  split
  · cases hrec : insertAfterH t.children with
    | none => simp [hrec, List.count_cons]
    | some l2 => simp [hrec, insertAfterH_count t.children l2 hrec]
  · simp [List.count_cons]

theorem countBlocks_zero_of_not_contains (t : RenderTarget)
    (h : containsBlock t = false) : countBlocks t = 0 := by
  unfold containsBlock at h
  unfold countBlocks
  rw [List.count_eq_zero]
  intro hmem
  have htrue : t.children.contains DomNode.block = true := List.elem_iff.mpr hmem
  rw [htrue] at h
  exact Bool.noConfusion h

theorem countBlocks_pos_of_contains (t : RenderTarget)
    (h : containsBlock t = true) : 1 ≤ countBlocks t := by
  unfold containsBlock at h
  unfold countBlocks
  rw [Nat.succ_le, List.count_pos_iff]
  exact List.elem_iff.mp h

theorem countBlocks_injectDom (b : Bool) (t : RenderTarget)
    (h : countBlocks t ≤ 1) : countBlocks (injectDom b t) = 1 := by
  unfold injectDom
  by_cases hc : containsBlock t = true
  · rw [if_pos hc]
    have := countBlocks_pos_of_contains t hc
    omega
  · rw [if_neg hc]
    rw [countBlocks_insertBlock,
      countBlocks_zero_of_not_contains t (by simpa using hc)]

theorem removeFirstBlock_count (l : List DomNode) :
    (removeFirstBlock l).count DomNode.block = l.count DomNode.block - 1 := by
  induction l with
  | nil => simp [removeFirstBlock]
  | cons n rest ih =>
    cases n with
    | block => simp [removeFirstBlock, List.count_cons]
    | heading => simp [removeFirstBlock, List.count_cons, ih]
    | other => simp [removeFirstBlock, List.count_cons, ih]

theorem countBlocks_removeDom (t : RenderTarget) :
    countBlocks (removeDom t) = countBlocks t - 1 := by
  unfold removeDom countBlocks
  exact removeFirstBlock_count t.children

theorem countBlocks_applyDomOp (op : DomOp) (t : RenderTarget)
    (h : countBlocks t ≤ 1) : countBlocks (applyDomOp op t) ≤ 1 := by
  cases op with
  | inj b => rw [applyDomOp, countBlocks_injectDom b t h]
  | rem => rw [applyDomOp, countBlocks_removeDom]; omega

theorem countBlocks_applyDomOps (ops : List DomOp) :
    ∀ t, countBlocks t ≤ 1 → countBlocks (applyDomOps ops t) ≤ 1 := by
  induction ops with
  | nil => intro t h; simpa [applyDomOps] using h
  | cons op rest ih =>
    intro t h
    have hstep := countBlocks_applyDomOp op t h
    simpa [applyDomOps] using ih (applyDomOp op t) hstep

/-! ## Claim theorems -/

/-- C1 (amended): variant A's rendering pipeline (copy the frontmatter,
delete `position`, then delete the trimmed comma-separated omitted names)
produces no row whose key is `position` or a member of the exclusion set.
Variant B's post-processor instead keeps every key that is not `tags` and
not in the exclusion set — it never filters `position` — so for variant B
only the `tags`/exclusion guarantee holds. -/
theorem c1_rows_filtered :
    (∀ omitted fm rows kv, renderRowsA omitted fm = some rows → kv ∈ rows →
      kv.1 ≠ "position" ∧ (parseOmitted omitted).contains kv.1 = false)
    ∧ (∀ excl fm kv, kv ∈ postProcessorRowsB excl fm →
      kv.1 ≠ "tags" ∧ (excludedListB excl).contains kv.1 = false) := by
  constructor
  · intro omitted fm rows kv hr hm
    have hrows : rows = filteredProps omitted (dropPosition fm) := by
      simp only [renderRowsA, getPropertiesRows] at hr
      split at hr
      · exact absurd hr (by simp)
      · injection hr with h
        exact h.symm
    rw [hrows] at hm
    obtain ⟨h1, h2⟩ := mem_filteredProps _ _ _ hm
    refine ⟨?_, h2⟩
    unfold dropPosition at h1
    rw [List.mem_filter] at h1
    simpa using h1.2
  · intro excl fm kv hm
    unfold postProcessorRowsB at hm
    rw [List.mem_filter] at hm
    have h2 := hm.2
    rw [Bool.and_eq_true] at h2
    exact ⟨by simpa using h2.1, by simpa using h2.2⟩

/-- Witness for C1's theorem at a concrete map and empty exclusion set. -/
theorem c1_rows_filtered_witness :
    (("a", Value.null).1 ≠ "position"
      ∧ (parseOmitted "").contains ("a", Value.null).1 = false)
    ∧ (("a", Value.null).1 ≠ "tags"
      ∧ (excludedListB "").contains ("a", Value.null).1 = false) :=
  ⟨c1_rows_filtered.1 "" [("a", Value.null)] [("a", Value.null)]
      ("a", Value.null) rfl (List.mem_cons_self _ _),
    c1_rows_filtered.2 "" [("a", Value.null)] ("a", Value.null)
      (List.mem_cons_self _ _)⟩

/-- C1 counterexample: variant B's post-processor (a listed source of the
claim) keeps a row keyed by the reserved name `position` even with an
empty exclusion set, because its filter only removes `tags` and excluded
names. -/
theorem c1_counterexample :
    (postProcessorRowsB "" [("position", Value.null)]).map Prod.fst
      = ["position"] := rfl

/-- C2: per render target, inject and remove are idempotent — injecting
twice from any at-most-one-block state leaves exactly one marker block,
removing twice leaves zero (and never errors, removal being total) — and
every sequence of inject/remove operations preserves the invariant that a
target holds at most one marker block. -/
theorem c2_inject_remove_idempotent (t : RenderTarget) (h : countBlocks t ≤ 1) :
    (∀ b b', countBlocks (injectDom b (injectDom b' t)) = 1)
    ∧ countBlocks (removeDom (removeDom t)) = 0
    ∧ ∀ ops, countBlocks (applyDomOps ops t) ≤ 1 := by
  refine ⟨?_, ?_, ?_⟩
  · intro b b'
    have h1 := countBlocks_injectDom b' t h
    exact countBlocks_injectDom b _ (by omega)
  · rw [countBlocks_removeDom, countBlocks_removeDom]
    omega
  · intro ops
    exact countBlocks_applyDomOps ops t h

/-- Witness for C2's theorem on a concrete heading-only target. -/
theorem c2_inject_remove_idempotent_witness :
    countBlocks ⟨[DomNode.heading, DomNode.other]⟩ ≤ 1
    ∧ countBlocks (injectDom true (injectDom true ⟨[DomNode.heading, DomNode.other]⟩)) = 1
    ∧ countBlocks (removeDom (removeDom ⟨[DomNode.heading, DomNode.other]⟩)) = 0 :=
  ⟨by decide,
    (c2_inject_remove_idempotent ⟨[DomNode.heading, DomNode.other]⟩ (by decide)).1 true true,
    (c2_inject_remove_idempotent ⟨[DomNode.heading, DomNode.other]⟩ (by decide)).2.1⟩

theorem escChar_no_meta (c0 c : Char) (h : c ∈ (escChar c0).data) :
    c ≠ '<' ∧ c ≠ '>' ∧ c ≠ '"' ∧ c ≠ quoteChar := by
  by_cases h1 : c0 = '&'
  · subst h1
    have e : (escChar '&').data = ['&', 'a', 'm', 'p', ';'] := rfl
    rw [e] at h
    simp at h
    rcases h with rfl | rfl | rfl | rfl | rfl <;> refine ⟨by decide, by decide, by decide, by decide⟩
  by_cases h2 : c0 = '<'
  · subst h2
    have e : (escChar '<').data = ['&', 'l', 't', ';'] := rfl
    rw [e] at h
    simp at h
    rcases h with rfl | rfl | rfl | rfl <;> refine ⟨by decide, by decide, by decide, by decide⟩
  by_cases h3 : c0 = '>'
  · subst h3
    have e : (escChar '>').data = ['&', 'g', 't', ';'] := rfl
    rw [e] at h
    simp at h
    rcases h with rfl | rfl | rfl | rfl <;> refine ⟨by decide, by decide, by decide, by decide⟩
  by_cases h4 : c0 = '"'
  · subst h4
    have e : (escChar '"').data = ['&', 'q', 'u', 'o', 't', ';'] := rfl
    rw [e] at h
    simp at h
    rcases h with rfl | rfl | rfl | rfl | rfl | rfl <;> refine ⟨by decide, by decide, by decide, by decide⟩
  by_cases h5 : c0 = quoteChar
  · subst h5
    have e : (escChar quoteChar).data = ['&', '#', '3', '9', ';'] := rfl
    rw [e] at h
    simp at h
    rcases h with rfl | rfl | rfl | rfl | rfl <;> refine ⟨by decide, by decide, by decide, by decide⟩
  · unfold escChar at h
    rw [if_neg h1, if_neg h2, if_neg h3, if_neg h4, if_neg h5] at h
    have e : (String.singleton c0).data = [c0] := rfl
    rw [e] at h
    simp at h
    subst h
    exact ⟨h2, h3, h4, h5⟩

theorem escapeChars_no_meta (l : List Char) (c : Char) (h : c ∈ escapeChars l) :
    c ≠ '<' ∧ c ≠ '>' ∧ c ≠ '"' ∧ c ≠ quoteChar := by
  induction l with
  | nil => simp [escapeChars] at h
  | cons c0 rest ih =>
    simp only [escapeChars] at h
    rw [List.mem_append] at h
    rcases h with h | h
    · exact escChar_no_meta c0 c h
    · exact ih h

/-- C3 (amended): `escapeHtml` output never contains a literal `<`, `>`,
`"` or apostrophe (so variant B, which routes every non-anchor segment
through it, yields `&lt;script&gt;` for `"<script>"`) — but variant B
passes a non-link segment that merely starts with `"<a "` through
unescaped, and variant A (see the counterexample) does not escape plain
text at all. -/
theorem c3_amended_escaping :
    (∀ s c, c ∈ (escapeHtml s).data →
      c ≠ '<' ∧ c ≠ '>' ∧ c ≠ '"' ∧ c ≠ quoteChar)
    ∧ (∀ lux, valueToHtmlB (Value.str "<script>") lux = "&lt;script&gt;"
        ∧ valueToHtmlB (Value.str "<a x") lux = "<a x") := by
  constructor
  · intro s c h
    exact escapeChars_no_meta s.data c h
  · intro lux
    exact ⟨rfl, rfl⟩

/-- Witness for C3's theorem: the escaped `"<"` is the entity `&lt;`, whose
first character satisfies the metacharacter-freedom conclusion. -/
theorem c3_amended_escaping_witness :
    ('&' ≠ '<' ∧ '&' ≠ '>' ∧ '&' ≠ '"' ∧ '&' ≠ quoteChar)
    ∧ valueToHtmlB (Value.str "<script>") (fun _ => none) = "&lt;script&gt;" :=
  ⟨c3_amended_escaping.1 "<" '&' (by decide),
    (c3_amended_escaping.2 (fun _ => none)).1⟩

/-- C3 counterexample: variant A's `valueToHtml` (a listed source of the
claim) returns plain text unescaped, so `format("<script>")` keeps its
literal `<` and `>`. -/
theorem c3_counterexample :
    valueToHtml (Value.str "<script>") = "<script>"
    ∧ '<' ∈ (valueToHtml (Value.str "<script>")).data
    ∧ '>' ∈ (valueToHtml (Value.str "<script>")).data :=
  ⟨rfl, by decide, by decide⟩

/-- C7 (amended): variant B's formatter renders `[[Note A|shown]]` as a
link with visible text `shown` and target `#Note A`, and `[[Note A]]` with
visible text `Note A`; variant A's regex `\[\[([^\]]+)\]\]` does not treat
the pipe, so it renders the visible text `Note A|shown` with the inert
target `#` (only the alias-free form shows `Note A`). -/
theorem c7_amended_links (lux : String → Option String) :
    visibleText (valueToHtmlB (Value.str "[[Note A|shown]]") lux) = "shown"
    ∧ hrefTarget (valueToHtmlB (Value.str "[[Note A|shown]]") lux) = "#Note A"
    ∧ visibleText (valueToHtmlB (Value.str "[[Note A]]") lux) = "Note A"
    ∧ hrefTarget (valueToHtmlB (Value.str "[[Note A]]") lux) = "#Note A"
    ∧ visibleText (valueToHtml (Value.str "[[Note A|shown]]")) = "Note A|shown"
    ∧ hrefTarget (valueToHtml (Value.str "[[Note A|shown]]")) = "#"
    ∧ visibleText (valueToHtml (Value.str "[[Note A]]")) = "Note A" :=
  ⟨rfl, rfl, rfl, rfl, rfl, rfl, rfl⟩

/-- C7 counterexample: on `[[Note A|shown]]` variant A's formatter (a
listed source of the claim) shows `Note A|shown`, not `shown`. -/
theorem c7_counterexample :
    visibleText (valueToHtml (Value.str "[[Note A|shown]]")) ≠ "shown"
    ∧ hrefTarget (valueToHtml (Value.str "[[Note A|shown]]")) = "#" :=
  ⟨by decide, rfl⟩

theorem setCB_cons (k : String) (v : Option CB) (rest : CmdTable)
    (cid : String) (cb : Option CB) :
    setCB ((k, v) :: rest) cid cb
      = (if k = cid then (k, cb) else (k, v)) :: setCB rest cid cb := rfl

theorem lookup_cons_model (a k : String) (v : Option CB) (rest : CmdTable) :
    List.lookup a ((k, v) :: rest)
      = (match a == k with
         | true => some v
         | false => List.lookup a rest) := rfl

theorem lookup_setCB_ne (cmds : CmdTable) (cid cid' : String) (cb : Option CB)
    (h : cid' ≠ cid) : (setCB cmds cid cb).lookup cid' = cmds.lookup cid' := by
  induction cmds with
  | nil => rfl
  | cons e rest ih =>
    obtain ⟨k, v⟩ := e
    rw [setCB_cons]
    by_cases hk : k = cid
    · rw [if_pos hk]
      rw [lookup_cons_model, lookup_cons_model]
      have hbeq : (cid' == k) = false := by simp [hk ▸ h]
      rw [hbeq]
      exact ih
    · rw [if_neg hk]
      rw [lookup_cons_model, lookup_cons_model]
      cases hbeq : (cid' == k)
      · exact ih
      · rfl

theorem lookup_setCB_self (cmds : CmdTable) (cid : String) (cb w : Option CB)
    (h : cmds.lookup cid = some w) : (setCB cmds cid cb).lookup cid = some cb := by
  induction cmds with
  | nil => simp [List.lookup] at h
  | cons e rest ih =>
    obtain ⟨k, v⟩ := e
    rw [setCB_cons]
    rw [lookup_cons_model] at h
    by_cases hk : k = cid
    · rw [if_pos hk, lookup_cons_model]
      have hbeq : (cid == k) = true := by simp [hk]
      rw [hbeq]
    · rw [if_neg hk, lookup_cons_model]
      have hbeq : (cid == k) = false := by simp [Ne.symm hk]
      rw [hbeq] at h
      rw [hbeq]
      exact ih h

theorem setCB_setCB (cmds : CmdTable) (cid : String) (cb cb' : Option CB) :
    setCB (setCB cmds cid cb) cid cb' = setCB cmds cid cb' := by
  induction cmds with
  | nil => rfl
  | cons e rest ih =>
    obtain ⟨k, v⟩ := e
    by_cases hk : k = cid
    · rw [setCB_cons, if_pos hk, setCB_cons, if_pos hk, setCB_cons, if_pos hk, ih]
    · rw [setCB_cons, if_neg hk, setCB_cons, if_neg hk, setCB_cons, if_neg hk, ih]

theorem setCB_not_mem (cmds : CmdTable) (cid : String) (cb : Option CB)
    (h : cid ∉ cmds.map Prod.fst) : setCB cmds cid cb = cmds := by
  induction cmds with
  | nil => rfl
  | cons e rest ih =>
    obtain ⟨k, v⟩ := e
    simp only [List.map_cons, List.mem_cons] at h
    push_neg at h
    rw [setCB_cons, if_neg (fun hk => h.1 hk.symm), ih h.2]

theorem setCB_lookup_id (cmds : CmdTable) (cid : String) (w : Option CB)
    (hnd : (cmds.map Prod.fst).Nodup) (h : cmds.lookup cid = some w) :
    setCB cmds cid w = cmds := by
  induction cmds with
  | nil => rfl
  | cons e rest ih =>
    obtain ⟨k, v⟩ := e
    simp only [List.map_cons, List.nodup_cons] at hnd
    rw [lookup_cons_model] at h
    by_cases hk : k = cid
    · have hbeq : (cid == k) = true := by simp [hk]
      rw [hbeq] at h
      have h2 : some v = some w := h
      injection h2 with hv
      rw [setCB_cons, if_pos hk, setCB_not_mem rest cid w (hk ▸ hnd.1), ← hv]
    · have hbeq : (cid == k) = false := by simp [Ne.symm hk]
      rw [hbeq] at h
      have h2 : List.lookup cid rest = some w := h
      rw [setCB_cons, if_neg hk, ih hnd.2 h2]

theorem removeInjected_restores (st : PluginState) (b : String)
    (hv : st.hasView = true) (hvb : viewHasBlock st = false)
    (hfi : st.hasFile = true) (hb : st.backup = some b)
    (hbe : b.data.isEmpty = false) :
    (removeInjectedProperties true st).backup = none
    ∧ (removeInjectedProperties true st).content = b := by
  unfold removeInjectedProperties
  rw [hv, hvb]
  simp only [Bool.not_true, Bool.false_eq_true, if_false]
  unfold restoreStep
  constructor <;> simp [hfi, hb, hbe]

/-- C4: the fallback patch path does NOT round-trip on an empty document.
`patchFileForExport` backs up the empty original and writes the markdown
block, but the restore guard `if (active && this.fileBackups[active.path])`
treats the empty backup string as falsy, so the removal step leaves the
injected markdown in the document and the backup entry in place. With any
non-empty original text the round trip does restore the text. -/
theorem c4_empty_text_roundtrip_fails :
    (removeInjectedProperties true (injectRenderedProperties true c4StartSt)).content
      = "<!-- export-properties-start -->\n**Properties**\n\n- **title**: x\n\n<!-- export-properties-end -->\n"
    ∧ (removeInjectedProperties true (injectRenderedProperties true c4StartSt)).content ≠ ""
    ∧ (removeInjectedProperties true (injectRenderedProperties true c4StartSt)).backup
      = some ""
    ∧ (removeInjectedProperties true (injectRenderedProperties true
        { c4StartSt with content := "body" })).content = "body"
    ∧ (removeInjectedProperties true (injectRenderedProperties true
        { c4StartSt with content := "body" })).backup = none :=
  ⟨rfl, by decide, rfl, rfl, rfl⟩

/-- C5 (amended): every patched command wrapper runs the remove step in a
finally-equivalent position, so when the delegated original action throws,
the remove step still executes on the action's final state and the
exception propagates to the caller; the file restore and backup deletion
inside that remove step happen when, at removal time, an active markdown
view exists, no marker block sits in it, an active file exists, and the
pending backup text is non-empty. -/
theorem c5_amended_finally (w : Bool)
    (f : PluginState → PluginState × Except String Unit) (st st2 : PluginState)
    (e : String) (hf : f (injectRenderedProperties w st) = (st2, Except.error e)) :
    wrappedCommand w (some f) st = (removeInjectedProperties w st2, Except.error e)
    ∧ (st2.hasView = true → viewHasBlock st2 = false → st2.hasFile = true →
        ∀ b, st2.backup = some b → b.data.isEmpty = false → w = true →
        (removeInjectedProperties w st2).backup = none
        ∧ (removeInjectedProperties w st2).content = b) := by
  constructor
  · simp only [wrappedCommand]
    rw [hf]
  · intro hv hvb hfi b hb hbe hw
    subst hw
    exact removeInjected_restores st2 b hv hvb hfi hb hbe

/-- Witness for C5's theorem: a throwing original action over a state with
an active view, a blockless section and a pending non-empty backup. -/
theorem c5_amended_finally_witness :
    (removeInjectedProperties true restoreReadySt).backup = none
    ∧ (removeInjectedProperties true restoreReadySt).content = "orig" :=
  (c5_amended_finally true (fun s => (s, Except.error "x"))
      restoreReadySt restoreReadySt "x" rfl).2
    rfl rfl rfl "orig" rfl rfl rfl

/-- C5 counterexample: with no active markdown view at removal time the
restore inside the remove step is skipped, so a pending backup survives
the whole wrapped invocation even though the exception propagates — the
restore and backup deletion are not executed merely because a backup
exists. -/
theorem c5_counterexample :
    (wrappedCommand true (some (fun s => (s, Except.error "boom"))) noViewBackupSt).1.backup
      = some "orig"
    ∧ (wrappedCommand true (some (fun s => (s, Except.error "boom"))) noViewBackupSt).2
      = Except.error "boom"
    ∧ ¬ ((wrappedCommand true (some (fun s => (s, Except.error "boom"))) noViewBackupSt).1.backup
      = none) :=
  ⟨rfl, rfl, by decide⟩

/-- C6 (amended): when the write performed by the patch operation fails,
the backup entry is deleted before the error is surfaced; when the remove
step's restoring write succeeds (active view, no view block, active file,
non-empty backup), the backup entry is deleted and the content restored.
When the restoring write fails, however, the failure is only logged and
the backup entry remains (see the counterexample). -/
theorem c6_amended_backup :
    (∀ st props md, getPropertiesMarkdown st.omittedProperties props = some md →
      (patchFileForExport false st props).1.backup = none
      ∧ (patchFileForExport false st props).2 = Except.error ())
    ∧ (∀ st b, st.hasView = true → viewHasBlock st = false → st.hasFile = true →
      st.backup = some b → b.data.isEmpty = false →
      (removeInjectedProperties true st).backup = none
      ∧ (removeInjectedProperties true st).content = b) := by
  constructor
  · intro st props md hmd
    unfold patchFileForExport
    rw [hmd]
    exact ⟨rfl, rfl⟩
  · intro st b hv hvb hfi hb hbe
    exact removeInjected_restores st b hv hvb hfi hb hbe

/-- Witness for C6's theorem: a failing patch write deletes the fresh
backup and surfaces the error; a successful restore deletes the backup. -/
theorem c6_amended_backup_witness :
    ((patchFileForExport false { c4StartSt with content := "doc" }
        [("title", Value.str "x")]).1.backup = none
      ∧ (patchFileForExport false { c4StartSt with content := "doc" }
        [("title", Value.str "x")]).2 = Except.error ())
    ∧ ((removeInjectedProperties true restoreReadySt).backup = none
      ∧ (removeInjectedProperties true restoreReadySt).content = "orig") :=
  ⟨c6_amended_backup.1 { c4StartSt with content := "doc" }
      [("title", Value.str "x")]
      "<!-- export-properties-start -->\n**Properties**\n\n- **title**: x\n\n<!-- export-properties-end -->\n"
      rfl,
    c6_amended_backup.2 restoreReadySt "orig" rfl rfl rfl rfl rfl⟩

/-- C6 counterexample: when the restoring write fails, the `delete` that
follows `vault.modify` is skipped, so the backup entry persists after the
removal/restore step has run — the claim's "never persists, including when
the restoring write fails" does not hold on the code. -/
theorem c6_counterexample :
    (removeInjectedProperties false restoreReadySt).backup = some "orig"
    ∧ ¬ ((removeInjectedProperties false restoreReadySt).backup = none) :=
  ⟨rfl, by decide⟩

/-- C8 (amended): when an intercepted trigger runs the inject operation in
a state with a current file whose frontmatter survives filtering, the
display setting on, an ACTIVE MARKDOWN VIEW, and no preview-section
container in the view or the document, the code reads the document text,
stores it in the backup, and writes the text with the markdown properties
block spliced at the top or after the first top-level heading line. With
no active view the operation is a no-op (see the counterexample). -/
theorem c8_amended_fallback (w : Bool) (st : PluginState)
    (fm : List (String × Value)) (md : String)
    (hFile : st.hasFile = true)
    (hfm : st.frontmatter = some fm)
    (hdisp : st.displayProperties = true)
    (hview : st.hasView = true)
    (hvs : st.viewSection = none)
    (hds : st.docSection = none)
    (hmd : getPropertiesMarkdown st.omittedProperties (dropPosition fm) = some md)
    (hw : w = true) :
    injectRenderedProperties w st
      = { st with
          content := splice st.insertAfterHeading md st.content
          backup := some st.content } := by
  subst hw
  have hrows : ∃ ps, getPropertiesRows st.omittedProperties (dropPosition fm) = some ps := by
    unfold getPropertiesMarkdown at hmd
    cases hr : getPropertiesRows st.omittedProperties (dropPosition fm) with
    | none => rw [hr] at hmd; exact absurd hmd (by simp)
    | some ps => exact ⟨ps, rfl⟩
  obtain ⟨ps, hr⟩ := hrows
  have hh : getPropertiesHtml st.omittedProperties (dropPosition fm)
      = some ("<div class=\"export-properties-block\" style=\"margin-bottom:1em;background:#f9f9f9;page-break-inside:avoid;\">"
        ++ "<table style=\"width:100%;\">" ++ String.join (ps.map rowHtml)
        ++ "</table></div>") := by
    unfold getPropertiesHtml
    rw [hr]
    rfl
  simp only [injectRenderedProperties, hFile, hfm, hdisp, hview, hvs, hds, hh,
    Bool.not_true, Bool.false_eq_true, if_false]
  unfold patchFileForExport
  rw [hmd]
  simp [hFile, hfm, hdisp, hview, hvs, hds]

/-- Witness for C8's theorem on a concrete heading-bearing document. -/
theorem c8_amended_fallback_witness :
    injectRenderedProperties true fallbackReadySt
      = { fallbackReadySt with
          content := splice true
            "<!-- export-properties-start -->\n**Properties**\n\n- **title**: x\n\n<!-- export-properties-end -->\n"
            "# H\nbody"
          backup := some "# H\nbody" } := by
  rw [c8_amended_fallback true fallbackReadySt [("title", Value.str "x")]
    "<!-- export-properties-start -->\n**Properties**\n\n- **title**: x\n\n<!-- export-properties-end -->\n"
    rfl rfl rfl rfl rfl rfl rfl rfl]
  rfl

/-- C8 counterexample: with no active markdown view (hence no container
with the preview-section marker reachable at all) the inject operation
returns without reading, backing up, or patching anything — the
content-patch fallback does not run. -/
theorem c8_counterexample :
    injectRenderedProperties true noViewInjectSt = noViewInjectSt
    ∧ (injectRenderedProperties true noViewInjectSt).backup = none
    ∧ (injectRenderedProperties true noViewInjectSt).content = "body" :=
  ⟨rfl, rfl, rfl⟩

theorem patchExportCmd_fst (cid : String) (wcb : CB) (s : PatchState × CmdTable) :
    (patchExportCmd cid wcb s).1 = s.1 := by
  simp only [patchExportCmd]
  cases hl : s.2.lookup cid <;> rfl

theorem patchExportCmd_lookup_ne (cid cid' : String) (wcb : CB)
    (s : PatchState × CmdTable) (h : cid' ≠ cid) :
    (patchExportCmd cid wcb s).2.lookup cid' = s.2.lookup cid' := by
  simp only [patchExportCmd]
  cases hl : s.2.lookup cid
  · rfl
  · exact lookup_setCB_ne _ _ _ _ h

theorem patchExportCmd_found (cid : String) (wcb : CB) (s : PatchState × CmdTable)
    (v : Option CB) (h : s.2.lookup cid = some v) :
    patchExportCmd cid wcb s = (s.1, setCB s.2 cid (some wcb)) := by
  simp only [patchExportCmd, h]

theorem patchPrint_lookup_ne (s : PatchState × CmdTable) (cid : String)
    (h : cid ≠ "editor:print") :
    (patchPrint s).2.lookup cid = s.2.lookup cid := by
  cases hl : s.2.lookup "editor:print" with
  | none =>
    have hred : patchPrint s = s := by simp only [patchPrint, hl]
    rw [hred]
  | some pcb =>
    have hred : patchPrint s
        = if s.1.isPrintPatched = true then s
          else (⟨pcb, true⟩, setCB s.2 "editor:print" (some CB.printWrapper)) := by
      simp only [patchPrint, hl]
    rw [hred]
    by_cases hip : s.1.isPrintPatched = true
    · rw [if_pos hip]
    · rw [if_neg hip]
      exact lookup_setCB_ne _ _ _ _ h

theorem onload_originalPrint (cmds : CmdTable) :
    (onloadPatchCommands cmds).1.originalPrint
      = (cmds.lookup "editor:print").join := by
  unfold onloadPatchCommands
  rw [patchExportCmd_fst, patchExportCmd_fst]
  simp only [patchPrint]
  cases hp : cmds.lookup "editor:print"
  · rfl
  · rfl

/-- C9 (amended): on unload, the `editor:print` callback is restored to its
pre-patch value when a non-null original was saved, so for a host table
(with distinct command ids) that carries NO `export-pdf` or
`app:export-pdf` command and whose `editor:print` callback, if the command
exists, is non-null, unload returns the table to its pre-patch state (a
no-op when nothing was intercepted). The wrappers installed on
`export-pdf`/`app:export-pdf` are never removed (see the counterexample). -/
theorem c9_amended_restore (cmds : CmdTable)
    (hnd : (cmds.map Prod.fst).Nodup)
    (hexp : cmds.lookup "export-pdf" = none)
    (happ : cmds.lookup "app:export-pdf" = none)
    (hpc : cmds.lookup "editor:print" ≠ some none) :
    onunloadRestore (onloadPatchCommands cmds) = cmds := by
  cases hp : cmds.lookup "editor:print" with
  | none =>
    have h1 : patchPrint (⟨none, false⟩, cmds) = (⟨none, false⟩, cmds) := by
      simp only [patchPrint, hp]
    have h2 : patchExportCmd "export-pdf" CB.exportWrapper
        ((⟨none, false⟩, cmds) : PatchState × CmdTable) = (⟨none, false⟩, cmds) := by
      simp only [patchExportCmd, hexp]
    have h3 : patchExportCmd "app:export-pdf" CB.appExportWrapper
        ((⟨none, false⟩, cmds) : PatchState × CmdTable) = (⟨none, false⟩, cmds) := by
      simp only [patchExportCmd, happ]
    unfold onloadPatchCommands
    rw [h1, h2, h3]
    simp only [onunloadRestore, hp]
  | some pcb =>
    cases pcb with
    | none => exact absurd hp hpc
    | some cb =>
      have h1 : patchPrint (⟨none, false⟩, cmds)
          = (⟨some cb, true⟩, setCB cmds "editor:print" (some CB.printWrapper)) := by
        simp only [patchPrint, hp]
        rfl
      have hexp1 : (setCB cmds "editor:print" (some CB.printWrapper)).lookup "export-pdf"
          = none := by
        rw [lookup_setCB_ne _ _ _ _ (by decide)]
        exact hexp
      have happ1 : (setCB cmds "editor:print" (some CB.printWrapper)).lookup "app:export-pdf"
          = none := by
        rw [lookup_setCB_ne _ _ _ _ (by decide)]
        exact happ
      have h2 : patchExportCmd "export-pdf" CB.exportWrapper
          ((⟨some cb, true⟩, setCB cmds "editor:print" (some CB.printWrapper))
            : PatchState × CmdTable)
          = (⟨some cb, true⟩, setCB cmds "editor:print" (some CB.printWrapper)) := by
        simp only [patchExportCmd, hexp1]
      have h3 : patchExportCmd "app:export-pdf" CB.appExportWrapper
          ((⟨some cb, true⟩, setCB cmds "editor:print" (some CB.printWrapper))
            : PatchState × CmdTable)
          = (⟨some cb, true⟩, setCB cmds "editor:print" (some CB.printWrapper)) := by
        simp only [patchExportCmd, happ1]
      have hlk : (setCB cmds "editor:print" (some CB.printWrapper)).lookup "editor:print"
          = some (some CB.printWrapper) := lookup_setCB_self cmds _ _ _ hp
      unfold onloadPatchCommands
      rw [h1, h2, h3]
      simp only [onunloadRestore, hlk]
      rw [setCB_setCB]
      exact setCB_lookup_id cmds _ _ hnd hp

/-- Witness for C9's theorem: a table holding only `editor:print`. -/
theorem c9_amended_restore_witness :
    onunloadRestore (onloadPatchCommands [("editor:print", some (CB.base "p"))])
      = [("editor:print", some (CB.base "p"))] :=
  c9_amended_restore [("editor:print", some (CB.base "p"))]
    (by decide) (by decide) (by decide) (by decide)

/-- C9 counterexample: when an `export-pdf` command exists, `onload`
overwrites its callback with a wrapper but `onunload` restores only
`editor:print`, so after unload the table differs from its pre-patch
state. -/
theorem c9_counterexample :
    onunloadRestore (onloadPatchCommands
        [("editor:print", some (CB.base "p")), ("export-pdf", some (CB.base "e"))])
      = [("editor:print", some (CB.base "p")), ("export-pdf", some CB.exportWrapper)]
    ∧ onunloadRestore (onloadPatchCommands
        [("editor:print", some (CB.base "p")), ("export-pdf", some (CB.base "e"))])
      ≠ [("editor:print", some (CB.base "p")), ("export-pdf", some (CB.base "e"))] :=
  ⟨rfl, by decide⟩

/-- C10: after `onload`'s patching, the `export-pdf` (and, when present,
`app:export-pdf`) command holds a wrapper whose invocation injects,
delegates to the callback saved FROM `editor:print` (or to nothing when
none was saved), and removes; the plugin's only saved callback slot holds
`editor:print`'s pre-patch callback, so the export command's own pre-patch
callback is saved nowhere and never runs again. -/
theorem c10_export_delegation (cmds : CmdTable) (ecb : CB)
    (hexp : cmds.lookup "export-pdf" = some (some ecb))
    (hne : (cmds.lookup "editor:print").join ≠ some ecb) :
    (onloadPatchCommands cmds).2.lookup "export-pdf" = some (some CB.exportWrapper)
    ∧ (onloadPatchCommands cmds).1.originalPrint = (cmds.lookup "editor:print").join
    ∧ invokeEvents (onloadPatchCommands cmds).1 CB.exportWrapper
        = CmdEvent.injected
          :: (delegEvents ((cmds.lookup "editor:print").join) ++ [CmdEvent.removed])
    ∧ CmdEvent.ran ecb ∉ invokeEvents (onloadPatchCommands cmds).1 CB.exportWrapper
    ∧ (onloadPatchCommands cmds).1.originalPrint ≠ some ecb
    ∧ (∀ acb, cmds.lookup "app:export-pdf" = some (some acb) →
        (onloadPatchCommands cmds).2.lookup "app:export-pdf"
          = some (some CB.appExportWrapper)
        ∧ ((cmds.lookup "editor:print").join ≠ some acb →
          CmdEvent.ran acb ∉ invokeEvents (onloadPatchCommands cmds).1 CB.appExportWrapper)) := by
  have horig := onload_originalPrint cmds
  have hexp1 : (patchPrint (⟨none, false⟩, cmds)).2.lookup "export-pdf"
      = some (some ecb) := by
    rw [patchPrint_lookup_ne _ _ (by decide)]
    exact hexp
  have hfound : patchExportCmd "export-pdf" CB.exportWrapper
      (patchPrint (⟨none, false⟩, cmds))
      = ((patchPrint (⟨none, false⟩, cmds)).1,
        setCB (patchPrint (⟨none, false⟩, cmds)).2 "export-pdf" (some CB.exportWrapper)) :=
    patchExportCmd_found _ _ _ _ hexp1
  have hexpw : (onloadPatchCommands cmds).2.lookup "export-pdf"
      = some (some CB.exportWrapper) := by
    unfold onloadPatchCommands
    rw [patchExportCmd_lookup_ne _ _ _ _ (by decide), hfound]
    exact lookup_setCB_self _ _ _ _ hexp1
  have hinv : invokeEvents (onloadPatchCommands cmds).1 CB.exportWrapper
      = CmdEvent.injected
        :: (delegEvents ((cmds.lookup "editor:print").join) ++ [CmdEvent.removed]) := by
    have hi : invokeEvents (onloadPatchCommands cmds).1 CB.exportWrapper
        = CmdEvent.injected
          :: (delegEvents (onloadPatchCommands cmds).1.originalPrint ++ [CmdEvent.removed]) := rfl
    rw [hi, horig]
  have hnotsaved : (onloadPatchCommands cmds).1.originalPrint ≠ some ecb := by
    rw [horig]
    exact hne
  have hnotran : CmdEvent.ran ecb ∉ invokeEvents (onloadPatchCommands cmds).1 CB.exportWrapper := by
    rw [hinv]
    cases hj : (cmds.lookup "editor:print").join with
    | none => simp [delegEvents]
    | some cb =>
      have hcb : cb ≠ ecb := by
        intro hcb
        exact hne (by rw [hj, hcb])
      simp [delegEvents]
      exact Ne.symm hcb
  refine ⟨hexpw, horig, hinv, hnotran, hnotsaved, ?_⟩
  intro acb hacb
  have hacb1 : (patchPrint (⟨none, false⟩, cmds)).2.lookup "app:export-pdf"
      = some (some acb) := by
    rw [patchPrint_lookup_ne _ _ (by decide)]
    exact hacb
  have hacb2 : (patchExportCmd "export-pdf" CB.exportWrapper
      (patchPrint (⟨none, false⟩, cmds))).2.lookup "app:export-pdf"
      = some (some acb) := by
    rw [patchExportCmd_lookup_ne _ _ _ _ (by decide)]
    exact hacb1
  have hafound : patchExportCmd "app:export-pdf" CB.appExportWrapper
      (patchExportCmd "export-pdf" CB.exportWrapper (patchPrint (⟨none, false⟩, cmds)))
      = ((patchExportCmd "export-pdf" CB.exportWrapper
          (patchPrint (⟨none, false⟩, cmds))).1,
        setCB (patchExportCmd "export-pdf" CB.exportWrapper
          (patchPrint (⟨none, false⟩, cmds))).2 "app:export-pdf"
          (some CB.appExportWrapper)) :=
    patchExportCmd_found _ _ _ _ hacb2
  constructor
  · unfold onloadPatchCommands
    rw [hafound]
    exact lookup_setCB_self _ _ _ _ hacb2
  · intro hnea
    have hinva : invokeEvents (onloadPatchCommands cmds).1 CB.appExportWrapper
        = CmdEvent.injected
          :: (delegEvents ((cmds.lookup "editor:print").join) ++ [CmdEvent.removed]) := by
      have hi : invokeEvents (onloadPatchCommands cmds).1 CB.appExportWrapper
          = CmdEvent.injected
            :: (delegEvents (onloadPatchCommands cmds).1.originalPrint ++ [CmdEvent.removed]) := rfl
      rw [hi, horig]
    rw [hinva]
    cases hj : (cmds.lookup "editor:print").join with
    | none => simp [delegEvents]
    | some cb =>
      have hcb : cb ≠ acb := by
        intro hcb
        exact hnea (by rw [hj, hcb])
      simp [delegEvents]
      exact Ne.symm hcb

/-- Witness for C10's theorem on a table holding all three commands. -/
theorem c10_export_delegation_witness :
    (onloadPatchCommands c10Cmds).2.lookup "export-pdf" = some (some CB.exportWrapper)
    ∧ invokeEvents (onloadPatchCommands c10Cmds).1 CB.exportWrapper
      = CmdEvent.injected
        :: (delegEvents ((c10Cmds.lookup "editor:print").join) ++ [CmdEvent.removed]) :=
  ⟨(c10_export_delegation c10Cmds (CB.base "e") (by decide) (by decide)).1,
    (c10_export_delegation c10Cmds (CB.base "e") (by decide) (by decide)).2.2.1⟩

/-- Witness for C7's theorem at a concrete luxon stub. -/
theorem c7_amended_links_witness :
    visibleText (valueToHtmlB (Value.str "[[Note A|shown]]") (fun _ => none)) = "shown"
    ∧ hrefTarget (valueToHtmlB (Value.str "[[Note A|shown]]") (fun _ => none)) = "#Note A" :=
  ⟨(c7_amended_links (fun _ => none)).1, (c7_amended_links (fun _ => none)).2.1⟩
